import Mathlib

set_option maxRecDepth 100000

/-
Verification development for the housing-affordability data pipeline.

Shallow embedding notes:
- Numeric values are modelled as rationals; Python float literals such as 0.4
  are exact decimals here.  Python's round(x, 2) is modelled by round2 below
  (scale by 100, round to the nearest integer, unscale).  Python rounds
  half-to-even on floats; no statement in this file evaluates round at a tie,
  so the difference is not observable in any theorem proved here.
- Python dicts preserve insertion order; they are modelled as association
  lists (key paired with value), updated in place and appended at the end for
  new keys, exactly as dict.setdefault followed by item assignment behaves.
- Code that can raise an uncaught exception is modelled with Option: none is
  an escaped exception (ZeroDivisionError or ValueError), some v a normal
  return.
- The SDMX envelope handling (requests, JSON decoding, the observation-index
  to TIME_PERIOD join, float() conversion) is outside the embedding: the
  aggregators receive the per-metric stream of (period id, value) pairs that
  the source's first phase produces from the envelope.
-/

/-- Python round to the nearest integer with ties to even (banker's
rounding), on exact rationals. -/
def pyRound (q : ℚ) : ℤ :=
  let f : ℤ := Int.fdiv q.num (q.den : ℤ)
  let r : ℚ := q - (f : ℚ)
  if r < 1 / 2 then f
  else if 1 / 2 < r then f + 1
  else if f % 2 = 0 then f else f + 1

/-- Python round(x, 2): scale by 100, round to the nearest integer with ties
to even, unscale. -/
def round2 (q : ℚ) : ℚ := ((pyRound (q * 100) : ℤ) : ℚ) / 100

/-- Government history table from OLD APP.py / build_data.py, in source order
(most recent first): list of (start_year, party). -/
def GOVERNMENT_HISTORY : List (Int × String) :=
  [(2022, "Labor"), (2013, "Liberal/National"), (2007, "Labor"), (1996, "Liberal/National")]

/-- Scan a regime list in order and return the party of the first entry whose
start_year is at most the queried year, defaulting to the sentinel. -/
def findFirstParty : List (Int × String) → Int → String
  | [], _ => "Unknown"
  | g :: rest, y => if g.1 ≤ y then g.2 else findFirstParty rest y

/-- OLD APP.py / build_data.py _get_government_party: iterates
reversed(GOVERNMENT_HISTORY), i.e. oldest entry first, and returns the party
of the first entry with start_year less than or equal to the year. -/
def _get_government_party (year : Int) : String :=
  findFirstParty GOVERNMENT_HISTORY.reverse year

/-- Spec-side comparison definition for the party lookup, following the
spec's words: scan entries from most recent to oldest and return the party
of the first entry whose start_year is at most the queried year, i.e. the
party of the LATEST qualifying entry (GOVERNMENT_HISTORY is descending). -/
def spec_party_for (year : Int) : String :=
  findFirstParty GOVERNMENT_HISTORY year

/-- OLD APP.py calculate_gphi_score: raw = avg_rppi / avg_cpi;
round(100 - raw * 0.4, 2).  The division raises ZeroDivisionError when
avg_cpi is exactly zero (modelled as none); there is no other guard. -/
def calculate_gphi_score (avg_rppi avg_cpi : ℚ) : Option ℚ :=
  if avg_cpi = 0 then none
  else some (round2 (100 - avg_rppi / avg_cpi * (0.4 : ℚ)))

/-- Modelled from the spec: the score_calculator module imported by main.py,
build_data.py and the (misnamed) score_calculator.py app file is not present
under src/.  Per the spec it guards a non-positive divisor by returning the
floor value 0.0, and otherwise computes round(100 - (avg_a / avg_b) * 0.4, 2). -/
def sc_calculate_gphi_score (avg_a avg_b : ℚ) : ℚ :=
  if avg_b ≤ 0 then 0
  else round2 (100 - avg_a / avg_b * (0.4 : ℚ))

/-- Annual record emitted by OLD APP.py transform_abs: year, rounded annual
averages, score, and party. -/
structure AnnualRecord where
  year : Int
  avg_rppi : ℚ
  avg_cpi : ℚ
  gphi_score : ℚ
  government_party : String
deriving DecidableEq, Repr

/-- Accumulator for the term in progress inside calculate_government_terms
(the Python dict with keys party, start_year, years, total_gphi). -/
structure CurTerm where
  party : String
  start_year : Int
  years : List AnnualRecord
  total_gphi : ℚ
deriving DecidableEq, Repr

/-- Output shape of finish_term in OLD APP.py. -/
structure Term where
  government_name : String
  government_party : String
  start_year : Int
  end_year : Int
  duration_years : Nat
  average_gphi_score : ℚ
  annual_metrics : List AnnualRecord
deriving DecidableEq, Repr

/-- OLD APP.py finish_term.  The Python body divides total_gphi by
len(years); on an empty accumulator that raises ZeroDivisionError, modelled
as none. -/
def finish_termO (c : CurTerm) : Option Term :=
  match c.years with
  | [] => none
  | r :: rs =>
    some {
      government_name := c.party ++ " (" ++ toString r.year ++ "-" ++
        toString ((r :: rs).getLast (List.cons_ne_nil r rs)).year ++ ")",
      government_party := c.party,
      start_year := r.year,
      end_year := ((r :: rs).getLast (List.cons_ne_nil r rs)).year,
      duration_years := (r :: rs).length,
      average_gphi_score := round2 (c.total_gphi / ((r :: rs).length : ℚ)),
      annual_metrics := r :: rs }

/-- Fresh accumulator for a record's party: the Python code creates it with
years = [] and total_gphi = 0 and then unconditionally appends the record and
adds its score, so the seeded accumulator already holds the record. -/
def startTerm (r : AnnualRecord) : CurTerm :=
  { party := r.government_party, start_year := r.year, years := [r],
    total_gphi := r.gphi_score }

/-- Appending a same-party record to the accumulator. -/
def addRow (c : CurTerm) (r : AnnualRecord) : CurTerm :=
  { c with years := c.years ++ [r], total_gphi := c.total_gphi + r.gphi_score }

/-- Loop body of OLD APP.py calculate_government_terms: walks the records
with the optional current accumulator.  A record whose party is "Unknown" is
skipped with continue (the accumulator is left untouched); a party change
finalizes the previous accumulator and seeds a new one; at the end of input
the pending accumulator is finalized. -/
def go : Option CurTerm → List AnnualRecord → Option (List Term)
  | cur, [] =>
    match cur with
    | none => some []
    | some c => (finish_termO c).map fun t => [t]
  | cur, r :: rest =>
    if r.government_party = "Unknown" then go cur rest
    else
      match cur with
      | none => go (some (startTerm r)) rest
      | some c =>
        if c.party = r.government_party then go (some (addRow c r)) rest
        else (finish_termO c).bind fun t =>
          (go (some (startTerm r)) rest).map fun ts => t :: ts

/-- OLD APP.py calculate_government_terms. -/
def calculate_government_terms (annual : List AnnualRecord) : Option (List Term) :=
  go none annual

/-- Concrete record sequence with parties Labor, Labor, Unknown, Labor used
to test the Unknown-party behaviour of the term grouper. -/
def c2recs : List AnnualRecord :=
  [⟨2000, 1, 1, 10, "Labor"⟩, ⟨2001, 1, 1, 20, "Labor"⟩,
   ⟨2002, 1, 1, 30, "Unknown"⟩, ⟨2003, 1, 1, 40, "Labor"⟩]

/-- Numeric value of a decimal digit character. -/
def digitVal (c : Char) : Nat := c.toNat - ('0' : Char).toNat

/-- Parse a nonempty all-digit character list as a natural number (leading
zeros allowed), as Python int() does for a plain digit string. -/
def parseDigits : List Char → Option Nat
  | [] => none
  | cs =>
    if cs.all (fun c => c.isDigit) then
      some (cs.foldl (fun n c => 10 * n + digitVal c) 0)
    else none

/-- Python int(s) on a stripped string: optional sign followed by digits
(the whitespace- and underscore-tolerance of Python's int is not exercised
by any period string in this development). -/
def pyInt (cs : List Char) : Option Int :=
  match cs with
  | '-' :: rest => (parseDigits rest).map fun n => -(n : Int)
  | '+' :: rest => (parseDigits rest).map fun n => (n : Int)
  | _ => (parseDigits cs).map fun n => (n : Int)

/-- Year of a period string: int(period.split("-")[0]), i.e. the prefix of
the string before the first dash parsed as an integer; none models the
ValueError raised by int() on a malformed prefix. -/
def yearOfPeriod (p : String) : Option Int :=
  pyInt (p.data.takeWhile fun c => c != '-')

/-- Value slot of one quarterly period in the quarterly dict: the last rppi
and cpi values assigned for that period, if any. -/
structure QEntry where
  rppi : Option ℚ := none
  cpi : Option ℚ := none
deriving DecidableEq, Repr

/-- Python quarterly.setdefault(p, default) followed by a field assignment:
update the entry of key p in place if the key is present, else append a
fresh entry at the end (dicts preserve insertion order). -/
def upsert : List (String × QEntry) → String → (QEntry → QEntry) → List (String × QEntry)
  | [], p, f => [(p, f {})]
  | (q, e) :: rest, p, f =>
    if q = p then (q, f e) :: rest else (q, e) :: upsert rest p f

/-- First phase of transform_abs: the two per-metric loops that fill the
quarterly dict keyed by period id, rppi first then cpi, assigning (and on a
duplicate period overwriting) the metric slot. -/
def buildQuarterly (rppiObs cpiObs : List (String × ℚ)) : List (String × QEntry) :=
  let q1 := rppiObs.foldl (fun qs ob => upsert qs ob.1 fun e => { e with rppi := some ob.2 }) []
  cpiObs.foldl (fun qs ob => upsert qs ob.1 fun e => { e with cpi := some ob.2 }) q1

/-- Annual accumulator bucket: totals and counts per metric for one year. -/
structure Bucket where
  year : Int
  rppi_total : ℚ
  cpi_total : ℚ
  rppi_count : Nat
  cpi_count : Nat
deriving DecidableEq, Repr

/-- The bucket annual.setdefault(year, ...) creates. -/
def freshBucket (y : Int) : Bucket := ⟨y, 0, 0, 0, 0⟩

/-- Add the rppi value of one quarterly entry, when present. -/
def bucketAddR (b : Bucket) : Option ℚ → Bucket
  | some v => { b with rppi_total := b.rppi_total + v, rppi_count := b.rppi_count + 1 }
  | none => b

/-- Add the cpi value of one quarterly entry, when present. -/
def bucketAddC (b : Bucket) : Option ℚ → Bucket
  | some v => { b with cpi_total := b.cpi_total + v, cpi_count := b.cpi_count + 1 }
  | none => b

/-- Add one quarterly entry to a bucket: the two conditional updates of the
annual loop body. -/
def bucketAdd (b : Bucket) (e : QEntry) : Bucket :=
  bucketAddC (bucketAddR b e.rppi) e.cpi

/-- Python annual.setdefault(year, fresh) followed by the in-place additions:
update the bucket of the year if present, else append a fresh one at the
end. -/
def updateBucket : List (Int × Bucket) → Int → QEntry → List (Int × Bucket)
  | [], y, e => [(y, bucketAdd (freshBucket y) e)]
  | (k, b) :: rest, y, e =>
    if k = y then (k, bucketAdd b e) :: rest else (k, b) :: updateBucket rest y e

/-- Second phase of OLD APP.py transform_abs: fold the quarterly entries
into annual buckets.  int(period.split("-")[0]) raises on a malformed
period and the exception is not caught, aborting the whole transform:
modelled as none. -/
def buildAnnual : List (String × QEntry) → List (Int × Bucket) → Option (List (Int × Bucket))
  | [], acc => some acc
  | (p, e) :: rest, acc =>
    match yearOfPeriod p with
    | none => none
    | some y => buildAnnual rest (updateBucket acc y e)

/-- Third phase of OLD APP.py transform_abs: drop years with fewer than two
quarterly values for either metric, average the rest, score them (the score
call can raise on a zero cpi average, hence Option) and attach the party. -/
def finalize : List (Int × Bucket) → Option (List AnnualRecord)
  | [] => some []
  | (y, b) :: rest =>
    if b.rppi_count < 2 ∨ b.cpi_count < 2 then finalize rest
    else
      (calculate_gphi_score (b.rppi_total / (b.rppi_count : ℚ)) (b.cpi_total / (b.cpi_count : ℚ))).bind fun g =>
        (finalize rest).map fun rs =>
          { year := y,
            avg_rppi := round2 (b.rppi_total / (b.rppi_count : ℚ)),
            avg_cpi := round2 (b.cpi_total / (b.cpi_count : ℚ)),
            gphi_score := g,
            government_party := _get_government_party y } :: rs

/-- Stable insertion of a record into a year-sorted list (records with
strictly smaller year stay in front; equal years keep input order, matching
Python's stable sort). -/
def insertByYear (r : AnnualRecord) : List AnnualRecord → List AnnualRecord
  | [] => [r]
  | x :: xs => if r.year < x.year then r :: x :: xs else x :: insertByYear r xs

/-- Python final.sort(key year), a stable ascending sort. -/
def sortByYear : List AnnualRecord → List AnnualRecord
  | [] => []
  | x :: xs => insertByYear x (sortByYear xs)

/-- OLD APP.py transform_abs on the per-metric (period id, value) streams
extracted from the SDMX envelope. -/
def transform_abs (rppiObs cpiObs : List (String × ℚ)) : Option (List AnnualRecord) :=
  (buildAnnual (buildQuarterly rppiObs cpiObs) []).bind fun ann =>
    (finalize ann).map fun out => sortByYear out

/-- Quarterly rppi values whose period parses to the given year, in
quarterly-dict order: the values transform_abs averages for that year. -/
def rppiValsFor (y : Int) (qs : List (String × QEntry)) : List ℚ :=
  qs.filterMap fun pe => if yearOfPeriod pe.1 = some y then pe.2.rppi else none

/-- Quarterly cpi values whose period parses to the given year. -/
def cpiValsFor (y : Int) (qs : List (String × QEntry)) : List ℚ :=
  qs.filterMap fun pe => if yearOfPeriod pe.1 = some y then pe.2.cpi else none

/-- Does some quarterly entry parse to the given year? -/
def hasYearQ (y : Int) (qs : List (String × QEntry)) : Bool :=
  qs.any fun pe => yearOfPeriod pe.1 == some y

/-- First bucket stored under a year key in an annual association list. -/
def lookupY : List (Int × Bucket) → Int → Option Bucket
  | [], _ => none
  | (k, b) :: rest, y => if k = y then some b else lookupY rest y

/-- Bucket obtained by adding every quarterly contribution for a year on
top of a base bucket. -/
def sumBucket (b : Bucket) (y : Int) (qs : List (String × QEntry)) : Bucket :=
  { year := b.year,
    rppi_total := b.rppi_total + (rppiValsFor y qs).sum,
    cpi_total := b.cpi_total + (cpiValsFor y qs).sum,
    rppi_count := b.rppi_count + (rppiValsFor y qs).length,
    cpi_count := b.cpi_count + (cpiValsFor y qs).length }

/-- Expected year lookup after folding a quarterly list into an annual
accumulator that previously held the given optional bucket for that year. -/
def mergeO : Option Bucket → Int → List (String × QEntry) → Option Bucket
  | some b, y, qs => some (sumBucket b y qs)
  | none, y, qs => if hasYearQ y qs then some (sumBucket (freshBucket y) y qs) else none

/-- Annual record emitted by main.py _transform_abs_data (field names as in
that file). -/
structure MainAnnualRecord where
  year : Int
  avg_rppi_index : ℚ
  avg_cpi_index : ℚ
  gphi_score : ℚ
  government_party : String
deriving DecidableEq, Repr

/-- Annual bucketing of main.py _transform_abs_data: the year parse sits in
a try/except that skips a malformed period with a warning and continues. -/
def mainBuildAnnual : List (String × QEntry) → List (Int × Bucket) → List (Int × Bucket)
  | [], acc => acc
  | (p, e) :: rest, acc =>
    match yearOfPeriod p with
    | none => mainBuildAnnual rest acc
    | some y => mainBuildAnnual rest (updateBucket acc y e)

/-- Output phase of main.py _transform_abs_data: emit a record when both
counts reach 2, using the guarded score from the score_calculator module
(main.py stores the party in the bucket at creation; the lookup is pure, so
reading it at emission is the same value).  main.py does not sort. -/
def mainFinalize : List (Int × Bucket) → List MainAnnualRecord
  | [] => []
  | (y, b) :: rest =>
    if 2 ≤ b.rppi_count ∧ 2 ≤ b.cpi_count then
      { year := y,
        avg_rppi_index := round2 (b.rppi_total / (b.rppi_count : ℚ)),
        avg_cpi_index := round2 (b.cpi_total / (b.cpi_count : ℚ)),
        gphi_score := sc_calculate_gphi_score (b.rppi_total / (b.rppi_count : ℚ)) (b.cpi_total / (b.cpi_count : ℚ)),
        government_party := _get_government_party y } :: mainFinalize rest
    else mainFinalize rest

/-- main.py _transform_abs_data on the per-metric (period id, value)
streams. -/
def main_transform_abs_data (rppiObs cpiObs : List (String × ℚ)) : List MainAnnualRecord :=
  mainFinalize (mainBuildAnnual (buildQuarterly rppiObs cpiObs) [])

/-- Concrete two-quarter observation stream whose annual mean 1.001 is
changed by rounding to two decimals. -/
def c5obs : List (String × ℚ) := [("2000-Q1", 1), ("2000-Q2", 1002 / 1000)]

/-- Concrete two-quarter observation stream with mean 3/2 (unchanged by
rounding). -/
def c5wObs : List (String × ℚ) := [("2000-Q1", 1), ("2000-Q2", 2)]

/-- Concrete rppi stream for the rounding-mismatch input. -/
def c10rppi : List (String × ℚ) := [("2000-Q1", 100), ("2000-Q2", 100)]

/-- Concrete cpi stream for the rounding-mismatch input: average 1.001,
stored rounded as 1. -/
def c10cpi : List (String × ℚ) := [("2000-Q1", 1), ("2000-Q2", 1002 / 1000)]

/-- Observation stream containing one malformed period among well-formed
ones. -/
def c8bad : List (String × ℚ) := [("bad-Q1", 1), ("2000-Q1", 1), ("2000-Q2", 2)]

/-- The well-formed observations of c8bad. -/
def c8good : List (String × ℚ) := [("2000-Q1", 1), ("2000-Q2", 2)]

/-- Observation stream for two years given in descending insertion order,
so that the ascending output order is the sort's doing. -/
def c7obs : List (String × ℚ) :=
  [("2001-Q1", 1), ("2001-Q2", 1), ("2000-Q1", 2), ("2000-Q2", 2)]

/-- Output record of transform_abs on (c5wObs, c5wObs). -/
def c5wRec : AnnualRecord := ⟨2000, 3 / 2, 3 / 2, (99.6 : ℚ), "Liberal/National"⟩

/-- First output record of transform_abs on (c7obs, c7obs). -/
def c7recA : AnnualRecord := ⟨2000, 2, 2, (99.6 : ℚ), "Liberal/National"⟩

/-- Second output record of transform_abs on (c7obs, c7obs). -/
def c7recB : AnnualRecord := ⟨2001, 1, 1, (99.6 : ℚ), "Liberal/National"⟩

/-- The single term grouping the two c7 records. -/
def c7term : Term :=
  ⟨"Liberal/National (2000-2001)", "Liberal/National", 2000, 2001, 2, (99.6 : ℚ),
   [c7recA, c7recB]⟩

/-- Output record of transform_abs on (c10rppi, c10cpi): stored averages 100
and 1 (the cpi average 1.001 rounds to 1), score taken on the unrounded
averages. -/
def c10rec : AnnualRecord := ⟨2000, 100, 1, (60.04 : ℚ), "Liberal/National"⟩

-- Theorems start below; claim-level theorems carry the claim id.

/-- C4: with the fixed regime table, the party lookup returns
"Liberal/National" for year 2010 and "Unknown" for year 1990. -/
theorem C4_party_lookup_examples :
    _get_government_party 2010 = "Liberal/National" ∧
    _get_government_party 1990 = "Unknown" := by
  decide

/-- C1 (code bug evaluation): the code scans reversed(GOVERNMENT_HISTORY),
oldest first, so every year at or after 1996 returns the party of the 1996
entry, "Liberal/National"; the latest-entry rule of the spec gives "Labor"
for 2010 (2007 entry) and for 2023 (2022 entry).  The 2022, 2013 and 2007
entries of the table are unreachable in the code. -/
theorem C1_party_lookup_code_bug :
    _get_government_party 2010 = "Liberal/National" ∧
    spec_party_for 2010 = "Labor" ∧
    _get_government_party 2023 = "Liberal/National" ∧
    spec_party_for 2023 = "Labor" ∧
    _get_government_party 1990 = "Unknown" ∧
    spec_party_for 1990 = "Unknown" := by
  decide

/-- C6: for a positive divisor, OLD APP.py calculate_gphi_score returns
round(100 - (avg_a / avg_b) * 0.4, 2); in particular at (100, 100) it
returns 99.6. -/
theorem C6_score_formula :
    (∀ a b : ℚ, 0 < b →
      calculate_gphi_score a b = some (round2 (100 - a / b * (0.4 : ℚ)))) ∧
    calculate_gphi_score 100 100 = some (99.6 : ℚ) := by
  constructor
  · intro a b hb
    simp [calculate_gphi_score, ne_of_gt hb]
  · with_unfolding_all decide

/-- Witness for C6: the positive-divisor branch evaluated at (7, 2). -/
theorem C6_score_formula_witness :
    calculate_gphi_score 7 2 = some (round2 (100 - 7 / 2 * (0.4 : ℚ))) :=
  C6_score_formula.1 7 2 (by norm_num)

/-- C3 counterexample: OLD APP.py calculate_gphi_score has no guard.  At
divisor 0 it raises ZeroDivisionError (modelled none, not the claimed 0.0),
and at the negative divisor -100 it returns 100.4, not the claimed 0.0. -/
theorem C3_score_guard_counterexample :
    calculate_gphi_score 100 0 = none ∧
    calculate_gphi_score 100 (-100) = some (100.4 : ℚ) ∧
    (Option.none : Option ℚ) ≠ some 0 ∧
    ((100.4 : ℚ) ≠ 0) := by
  with_unfolding_all decide

/-- C3 amended: OLD APP.py calculate_gphi_score raises exactly at divisor 0
and applies the unguarded formula to every nonzero divisor, negative ones
included; the floor-0.0 guard for a non-positive divisor belongs to the
score_calculator module (absent from src/, modelled from the spec), whose
score returns 0 for every avg_b at most 0. -/
theorem C3_score_guard_amended :
    (∀ a : ℚ, calculate_gphi_score a 0 = none) ∧
    (∀ a b : ℚ, b ≠ 0 →
      calculate_gphi_score a b = some (round2 (100 - a / b * (0.4 : ℚ)))) ∧
    (∀ a b : ℚ, b ≤ 0 → sc_calculate_gphi_score a b = 0) := by
  refine ⟨fun a => by simp [calculate_gphi_score], fun a b hb => by simp [calculate_gphi_score, hb], fun a b hb => by simp [sc_calculate_gphi_score, hb]⟩

/-- Witness for C3 amended: the nonzero-divisor branch at (1, -2) and the
spec-modelled guard at (5, -3). -/
theorem C3_score_guard_amended_witness :
    calculate_gphi_score 1 (-2) = some (round2 (100 - 1 / (-2) * (0.4 : ℚ))) ∧
    sc_calculate_gphi_score 5 (-3) = 0 :=
  ⟨C3_score_guard_amended.2.1 1 (-2) (by norm_num),
   C3_score_guard_amended.2.2 5 (-3) (by norm_num)⟩

/-- Finalizing a nonempty accumulator succeeds and reports record count and
accumulated records unchanged. -/
theorem finish_termO_spec (c : CurTerm) (h : c.years ≠ []) :
    ∃ t, finish_termO c = some t ∧ t.annual_metrics = c.years ∧
      t.duration_years = c.years.length ∧ t.government_party = c.party := by
  cases hy : c.years with
  | nil => exact absurd hy h
  | cons r rs =>
    have he : finish_termO c =
        some {
          government_name := c.party ++ " (" ++ toString r.year ++ "-" ++
            toString ((r :: rs).getLast (List.cons_ne_nil r rs)).year ++ ")",
          government_party := c.party,
          start_year := r.year,
          end_year := ((r :: rs).getLast (List.cons_ne_nil r rs)).year,
          duration_years := (r :: rs).length,
          average_gphi_score := round2 (c.total_gphi / ((r :: rs).length : ℚ)),
          annual_metrics := r :: rs } := by
      simp [finish_termO, hy]
    exact ⟨_, he, by simp [hy], by simp [hy], rfl⟩

/-- When the pending accumulator (if any) is nonempty, the grouper loop never
fails and every emitted term counts at least one record. -/
theorem go_total (rows : List AnnualRecord) :
    ∀ cur : Option CurTerm, (∀ c, cur = some c → c.years ≠ []) →
    ∃ ts, go cur rows = some ts ∧ ∀ t ∈ ts, 1 ≤ t.duration_years := by
  induction rows with
  | nil =>
    intro cur hcur
    cases cur with
    | none => exact ⟨[], rfl, by simp⟩
    | some c =>
      obtain ⟨t, ht, _, hd, _⟩ := finish_termO_spec c (hcur c rfl)
      refine ⟨[t], by simp [go, ht], ?_⟩
      intro t' ht'
      rw [List.mem_singleton] at ht'
      subst ht'
      rw [hd]
      have := List.length_pos.mpr (hcur c rfl)
      omega
  | cons r rest ih =>
    intro cur hcur
    by_cases h : r.government_party = "Unknown"
    · obtain ⟨ts, hts, hall⟩ := ih cur hcur
      exact ⟨ts, by simp [go, h, hts], hall⟩
    · cases cur with
      | none =>
        obtain ⟨ts, hts, hall⟩ := ih (some (startTerm r))
          (by intro c hc; cases hc; simp [startTerm])
        exact ⟨ts, by simp [go, h, hts], hall⟩
      | some c =>
        by_cases hp : c.party = r.government_party
        · obtain ⟨ts, hts, hall⟩ := ih (some (addRow c r))
            (by intro c' hc'; cases hc'; simp [addRow])
          exact ⟨ts, by simp [go, h, hp, hts], hall⟩
        · obtain ⟨t, ht, _, hd, _⟩ := finish_termO_spec c (hcur c rfl)
          obtain ⟨ts, hts, hall⟩ := ih (some (startTerm r))
            (by intro c' hc'; cases hc'; simp [startTerm])
          refine ⟨t :: ts, by simp [go, h, hp, ht, hts], ?_⟩
          intro t' ht'
          rcases List.mem_cons.mp ht' with h1 | h2
          · subst h1
            rw [hd]
            have := List.length_pos.mpr (hcur c rfl)
            omega
          · exact hall t' h2

/-- Records whose party is "Unknown" have no effect at all on the grouper
loop state: filtering them out first gives the same result. -/
theorem go_filter_unknown (rows : List AnnualRecord) :
    ∀ cur : Option CurTerm,
    go cur (rows.filter fun r => !(r.government_party == "Unknown")) = go cur rows := by
  induction rows with
  | nil => intro cur; rfl
  | cons r rest ih =>
    intro cur
    by_cases h : r.government_party = "Unknown"
    · simp [List.filter_cons, h, go, ih]
    · have hb : (!(r.government_party == "Unknown")) = true := by simp [h]
      cases cur with
      | none => simp [List.filter_cons, hb, go, h, ih]
      | some c =>
        by_cases hp : c.party = r.government_party
        · simp [List.filter_cons, hb, go, h, hp, ih]
        · simp [List.filter_cons, hb, go, h, hp, ih]

/-- C9: the grouper never passes an empty accumulator to finish_term, so the
division by the record count inside finish_term never divides by zero (the
pipeline never fails with none) and every emitted term has at least one
record, hence duration_years at least 1. -/
theorem C9_finish_term_safety (annual : List AnnualRecord) :
    ∃ ts, calculate_government_terms annual = some ts ∧
      ∀ t ∈ ts, 1 ≤ t.duration_years :=
  go_total annual none (by intro c hc; cases hc)

/-- C2 counterexample: on records with parties Labor, Labor, Unknown, Labor
the code produces ONE term for Labor holding 3 records and spanning
2000-2003, not the two separate terms the claim states; the Unknown record
does not finalize the current term (it is only dropped). -/
theorem C2_unknown_break_counterexample :
    (calculate_government_terms c2recs).map
        (fun ts => ts.map fun t => (t.government_party, t.duration_years, t.start_year, t.end_year)) =
      some [("Labor", 3, 2000, 2003)] ∧
    (calculate_government_terms c2recs).map List.length ≠ some 2 := by
  with_unfolding_all decide

/-- C2 amended: a record whose party is "Unknown" is itself dropped from
every term, but it does NOT finalize the current term: the grouping is the
same as that of the input with Unknown-party records filtered out, so
parties Labor, Labor, Unknown, Labor yield a single Labor term holding the
three Labor records. -/
theorem C2_unknown_records_amended :
    (∀ annual : List AnnualRecord,
      calculate_government_terms (annual.filter fun r => !(r.government_party == "Unknown")) =
        calculate_government_terms annual) ∧
    (calculate_government_terms c2recs).map
        (fun ts => ts.map fun t => (t.government_party, t.annual_metrics.map AnnualRecord.year)) =
      some [("Labor", [2000, 2001, 2003])] := by
  constructor
  · intro annual
    exact go_filter_unknown annual none
  · with_unfolding_all decide

/-- Upserting a parseable-period key commutes with filtering the quarterly
dict to parseable-period entries. -/
theorem filter_upsert_true (p : String) (f : QEntry → QEntry)
    (h : (yearOfPeriod p).isSome = true) :
    ∀ qs : List (String × QEntry),
    (upsert qs p f).filter (fun pe => (yearOfPeriod pe.1).isSome) =
      upsert (qs.filter fun pe => (yearOfPeriod pe.1).isSome) p f := by
  intro qs
  induction qs with
  | nil => simp [upsert, List.filter, h]
  | cons qe rest ih =>
    by_cases hq : qe.1 = p
    · simp [upsert, List.filter_cons, hq, h]
    · cases hPq : (yearOfPeriod qe.1).isSome with
      | true => simp [upsert, List.filter_cons, hq, hPq, ih]
      | false => simp [upsert, List.filter_cons, hq, hPq, ih]

/-- Upserting an unparseable-period key is invisible to the
parseable-period filter. -/
theorem filter_upsert_false (p : String) (f : QEntry → QEntry)
    (h : (yearOfPeriod p).isSome = false) :
    ∀ qs : List (String × QEntry),
    (upsert qs p f).filter (fun pe => (yearOfPeriod pe.1).isSome) =
      qs.filter fun pe => (yearOfPeriod pe.1).isSome := by
  intro qs
  induction qs with
  | nil => simp [upsert, List.filter, h]
  | cons qe rest ih =>
    by_cases hq : qe.1 = p
    · have : (yearOfPeriod qe.1).isSome = false := by rw [hq]; exact h
      simp [upsert, List.filter_cons, hq, this, h]
    · cases hPq : (yearOfPeriod qe.1).isSome with
      | true => simp [upsert, List.filter_cons, hq, hPq, ih]
      | false => simp [upsert, List.filter_cons, hq, hPq, ih]

/-- Folding upserts over a filtered observation stream from a filtered dict
is the filter of folding over the full stream. -/
theorem foldl_upsert_filter (f : String × ℚ → QEntry → QEntry) :
    ∀ (obs : List (String × ℚ)) (qs : List (String × QEntry)),
    ((obs.foldl (fun acc ob => upsert acc ob.1 (f ob)) qs).filter
        (fun pe => (yearOfPeriod pe.1).isSome)) =
      ((obs.filter fun ob => (yearOfPeriod ob.1).isSome).foldl
        (fun acc ob => upsert acc ob.1 (f ob))
        (qs.filter fun pe => (yearOfPeriod pe.1).isSome)) := by
  intro obs
  induction obs with
  | nil => intro qs; rfl
  | cons ob rest ih =>
    intro qs
    cases hP : (yearOfPeriod ob.1).isSome with
    | true =>
      simp [List.foldl_cons, List.filter_cons, hP, ih, filter_upsert_true ob.1 (f ob) hP qs]
    | false =>
      simp [List.foldl_cons, List.filter_cons, hP, ih, filter_upsert_false ob.1 (f ob) hP qs]

/-- Building the quarterly dict from the parseable-period observations gives
the parseable-period entries of the full dict. -/
theorem buildQuarterly_filter (rppiObs cpiObs : List (String × ℚ)) :
    buildQuarterly (rppiObs.filter fun ob => (yearOfPeriod ob.1).isSome)
        (cpiObs.filter fun ob => (yearOfPeriod ob.1).isSome) =
      (buildQuarterly rppiObs cpiObs).filter fun pe => (yearOfPeriod pe.1).isSome := by
  unfold buildQuarterly
  rw [foldl_upsert_filter (fun ob e => { e with cpi := some ob.2 }) cpiObs]
  rw [foldl_upsert_filter (fun ob e => { e with rppi := some ob.2 }) rppiObs]
  rfl

/-- The main.py annual loop skips exactly the unparseable-period entries:
filtering them away first changes nothing. -/
theorem mainBuildAnnual_filter :
    ∀ (qs : List (String × QEntry)) (acc : List (Int × Bucket)),
    mainBuildAnnual (qs.filter fun pe => (yearOfPeriod pe.1).isSome) acc =
      mainBuildAnnual qs acc := by
  intro qs
  induction qs with
  | nil => intro acc; rfl
  | cons pe rest ih =>
    intro acc
    cases hy : yearOfPeriod pe.1 with
    | none => simp [List.filter_cons, hy, mainBuildAnnual, ih]
    | some y => simp [List.filter_cons, hy, mainBuildAnnual, ih]

/-- C8 counterexample: OLD APP.py transform_abs (cited by the claim) does
NOT skip a malformed period: int() raises an uncaught ValueError and the
whole aggregation aborts (none), instead of returning the records derived
from the well-formed observations (which would be the single 2000 record
shown). -/
theorem C8_malformed_period_counterexample :
    transform_abs c8bad c8good = none ∧
    transform_abs (c8bad.filter fun ob => (yearOfPeriod ob.1).isSome) c8good =
      some [⟨2000, 3 / 2, 3 / 2, (99.6 : ℚ), "Liberal/National"⟩] := by
  with_unfolding_all decide

/-- C8 amended: in main.py's _transform_abs_data an observation with a
malformed period prefix is skipped (with a warning) and aggregation returns
exactly the records derived from the well-formed observations, never
raising; OLD APP.py's transform_abs instead aborts on such input. -/
theorem C8_malformed_period_amended :
    (∀ rppiObs cpiObs : List (String × ℚ),
      main_transform_abs_data (rppiObs.filter fun ob => (yearOfPeriod ob.1).isSome)
          (cpiObs.filter fun ob => (yearOfPeriod ob.1).isSome) =
        main_transform_abs_data rppiObs cpiObs) ∧
    main_transform_abs_data c8bad c8good =
      [⟨2000, 3 / 2, 3 / 2, (99.6 : ℚ), "Liberal/National"⟩] := by
  constructor
  · intro rppiObs cpiObs
    unfold main_transform_abs_data
    rw [buildQuarterly_filter, mainBuildAnnual_filter]
  · with_unfolding_all decide

/-- Looking a year up after an updateBucket: the updated year holds the old
(or fresh) bucket plus the entry, other years are untouched. -/
theorem lookupY_updateBucket (y z : Int) (e : QEntry) :
    ∀ acc, lookupY (updateBucket acc y e) z =
      if z = y then some (bucketAdd ((lookupY acc y).getD (freshBucket y)) e)
      else lookupY acc z := by
  intro acc
  induction acc with
  | nil =>
    by_cases hz : z = y
    · simp [updateBucket, lookupY, hz]
    · have hyz : ¬(y = z) := fun h => hz h.symm
      simp [updateBucket, lookupY, hz, hyz]
  | cons kb rest ih =>
    by_cases hk : kb.1 = y
    · by_cases hz : z = y
      · simp [updateBucket, lookupY, hk, hz]
      · have hkz : ¬(kb.1 = z) := by rw [hk]; exact fun h => hz h.symm
        have hyz : ¬(y = z) := fun h => hz h.symm
        simp [updateBucket, lookupY, hk, hz, hkz, hyz]
    · by_cases hkz : kb.1 = z
      · have hz : ¬(z = y) := by rw [← hkz]; exact fun h => hk h
        simp [updateBucket, lookupY, hk, hkz, hz]
      · simp [updateBucket, lookupY, hk, hkz, ih]

/-- Keys present after an updateBucket. -/
theorem mem_keys_updateBucket (y z : Int) (e : QEntry) :
    ∀ acc, z ∈ (updateBucket acc y e).map Prod.fst ↔
      z ∈ acc.map Prod.fst ∨ z = y := by
  intro acc
  induction acc with
  | nil => simp [updateBucket, eq_comm]
  | cons kb rest ih =>
    by_cases hk : kb.1 = y
    · subst hk
      simp [updateBucket]
      tauto
    · simp [updateBucket, hk, ih]
      tauto

/-- updateBucket keeps the year keys distinct. -/
theorem nodup_keys_updateBucket (y : Int) (e : QEntry) :
    ∀ acc, ((acc.map Prod.fst).Nodup) →
      (((updateBucket acc y e).map Prod.fst).Nodup) := by
  intro acc
  induction acc with
  | nil => intro _; simp [updateBucket]
  | cons kb rest ih =>
    intro hnd
    rw [List.map_cons, List.nodup_cons] at hnd
    by_cases hk : kb.1 = y
    · subst hk
      simp [updateBucket, List.nodup_cons, hnd.1, hnd.2]
    · rw [updateBucket]
      simp only [hk, if_false, List.map_cons, List.nodup_cons]
      refine ⟨?_, ih hnd.2⟩
      rw [mem_keys_updateBucket]
      push_neg
      exact ⟨hnd.1, hk⟩

/-- A year absent from the keys looks up to none. -/
theorem lookupY_eq_none_of_not_mem (z : Int) :
    ∀ acc : List (Int × Bucket), z ∉ acc.map Prod.fst → lookupY acc z = none := by
  intro acc
  induction acc with
  | nil => intro _; rfl
  | cons kb rest ih =>
    intro h
    rw [List.map_cons, List.mem_cons] at h
    push_neg at h
    have : ¬(kb.1 = z) := fun he => h.1 he.symm
    simp [lookupY, this, ih h.2]

/-- The annual fold keeps the year keys distinct. -/
theorem buildAnnual_nodup_keys :
    ∀ (qs : List (String × QEntry)) (acc ann : List (Int × Bucket)),
    ((acc.map Prod.fst).Nodup) → buildAnnual qs acc = some ann →
    ((ann.map Prod.fst).Nodup) := by
  intro qs
  induction qs with
  | nil =>
    intro acc ann hnd h
    cases h
    exact hnd
  | cons pe rest ih =>
    intro acc ann hnd h
    rw [buildAnnual] at h
    cases hy : yearOfPeriod pe.1 with
    | none => rw [hy] at h; cases h
    | some y =>
      rw [hy] at h
      exact ih _ _ (nodup_keys_updateBucket y pe.2 acc hnd) h

/-- Adding no quarterly contributions changes nothing. -/
theorem sumBucket_nil (b : Bucket) (z : Int) : sumBucket b z [] = b := by
  simp [sumBucket, rppiValsFor, cpiValsFor]

/-- Consuming a quarterly entry of the tracked year first and then the rest
is the same as summing all contributions at once. -/
theorem sumBucket_cons_same (b : Bucket) (pe : String × QEntry)
    (rest : List (String × QEntry)) (z : Int) (hy : yearOfPeriod pe.1 = some z) :
    sumBucket (bucketAdd b pe.2) z rest = sumBucket b z (pe :: rest) := by
  obtain ⟨p, e⟩ := pe
  simp only at hy
  cases hr : e.rppi with
  | none =>
    cases hc : e.cpi with
    | none =>
      simp [sumBucket, bucketAdd, bucketAddR, bucketAddC, hr, hc,
        rppiValsFor, cpiValsFor, List.filterMap_cons, hy]
    | some v =>
      simp [sumBucket, bucketAdd, bucketAddR, bucketAddC, hr, hc,
        rppiValsFor, cpiValsFor, List.filterMap_cons, hy]
      repeat' apply And.intro
      all_goals ring
  | some v =>
    cases hc : e.cpi with
    | none =>
      simp [sumBucket, bucketAdd, bucketAddR, bucketAddC, hr, hc,
        rppiValsFor, cpiValsFor, List.filterMap_cons, hy]
      repeat' apply And.intro
      all_goals ring
    | some w =>
      simp [sumBucket, bucketAdd, bucketAddR, bucketAddC, hr, hc,
        rppiValsFor, cpiValsFor, List.filterMap_cons, hy]
      repeat' apply And.intro
      all_goals ring

/-- A quarterly entry of a different year contributes nothing to the
tracked year's values. -/
theorem vals_cons_other (pe : String × QEntry) (rest : List (String × QEntry))
    (z : Int) (hne : yearOfPeriod pe.1 ≠ some z) :
    rppiValsFor z (pe :: rest) = rppiValsFor z rest ∧
    cpiValsFor z (pe :: rest) = cpiValsFor z rest ∧
    hasYearQ z (pe :: rest) = hasYearQ z rest := by
  refine ⟨?_, ?_, ?_⟩
  · simp [rppiValsFor, List.filterMap_cons, hne]
  · simp [cpiValsFor, List.filterMap_cons, hne]
  · simp [hasYearQ, hne]

/-- Master characterization of the annual fold: looking up any year in the
result merges the year's prior accumulator content with the totals, counts
and values of all quarterly entries parsing to that year. -/
theorem buildAnnual_lookup :
    ∀ (qs : List (String × QEntry)) (acc ann : List (Int × Bucket)),
    buildAnnual qs acc = some ann → ∀ z,
    lookupY ann z = mergeO (lookupY acc z) z qs := by
  intro qs
  induction qs with
  | nil =>
    intro acc ann h z
    cases h
    cases hl : lookupY acc z with
    | none => simp [mergeO, hasYearQ, hl]
    | some b => simp [mergeO, sumBucket_nil, hl]
  | cons pe rest ih =>
    intro acc ann h z
    rw [buildAnnual] at h
    cases hy : yearOfPeriod pe.1 with
    | none => rw [hy] at h; cases h
    | some y =>
      rw [hy] at h
      have hstep := ih (updateBucket acc y pe.2) ann h z
      rw [hstep, lookupY_updateBucket]
      by_cases hz : z = y
      · subst hz
        have hyz : yearOfPeriod pe.1 = some z := hy
        cases hl : lookupY acc z with
        | some b =>
          simp [mergeO, sumBucket_cons_same b pe rest z hyz]
        | none =>
          have hhas : hasYearQ z (pe :: rest) = true := by
            simp [hasYearQ]
            exact Or.inl hyz
          simp [mergeO, hhas, sumBucket_cons_same (freshBucket z) pe rest z hyz]
      · have hne : yearOfPeriod pe.1 ≠ some z := by
          rw [hy]
          intro hcon
          exact hz (Option.some.inj hcon).symm
        obtain ⟨hv1, hv2, hv3⟩ := vals_cons_other pe rest z hne
        simp only [hz, if_false]
        cases hl : lookupY acc z with
        | some b => simp [mergeO, sumBucket, hv1, hv2]
        | none => simp [mergeO, sumBucket, hv1, hv2, hv3]

/-- Specialization to the empty starting accumulator: the final bucket of a
year is exactly the sums over the quarterly entries of that year, or absent
when no entry parses to it. -/
theorem buildAnnual_lookup_nil (qs : List (String × QEntry))
    (ann : List (Int × Bucket)) (h : buildAnnual qs [] = some ann) (z : Int) :
    lookupY ann z =
      if hasYearQ z qs then some (sumBucket (freshBucket z) z qs) else none := by
  have := buildAnnual_lookup qs [] ann h z
  rw [this]
  rfl

/-- A year no quarterly entry parses to has no values for either metric. -/
theorem vals_nil_of_not_hasYear (z : Int) :
    ∀ qs : List (String × QEntry), hasYearQ z qs = false →
    rppiValsFor z qs = [] ∧ cpiValsFor z qs = [] := by
  intro qs
  induction qs with
  | nil => intro _; exact ⟨rfl, rfl⟩
  | cons pe rest ih =>
    intro h
    rw [hasYearQ, List.any_cons] at h
    have h1 : (yearOfPeriod pe.1 == some z) = false := by
      cases hb : (yearOfPeriod pe.1 == some z) with
      | false => rfl
      | true => rw [hb] at h; simp at h
    have h2 : hasYearQ z rest = false := by
      cases hb : rest.any fun pe => yearOfPeriod pe.1 == some z with
      | false => exact hb
      | true => rw [hb] at h; simp at h
    have hne : yearOfPeriod pe.1 ≠ some z := by
      intro hcon
      rw [hcon] at h1
      simp at h1
    obtain ⟨ihr, ihc⟩ := ih h2
    obtain ⟨hv1, hv2, _⟩ := vals_cons_other pe rest z hne
    constructor
    · rw [hv1]
      exact ihr
    · rw [hv2]
      exact ihc

/-- A year with no bucket contributes no output record. -/
theorem finalize_filter_none :
    ∀ (ann : List (Int × Bucket)) (out : List AnnualRecord),
    finalize ann = some out → ∀ z, lookupY ann z = none →
    out.filter (fun r => r.year == z) = [] := by
  intro ann
  induction ann with
  | nil =>
    intro out h z _
    cases h
    rfl
  | cons kb rest ih =>
    intro out h z hl
    obtain ⟨y, b⟩ := kb
    rw [lookupY] at hl
    by_cases hyz : y = z
    · rw [if_pos hyz] at hl
      cases hl
    · rw [if_neg hyz] at hl
      rw [finalize] at h
      by_cases hskip : b.rppi_count < 2 ∨ b.cpi_count < 2
      · rw [if_pos hskip] at h
        exact ih out h z hl
      · rw [if_neg hskip] at h
        cases hg : calculate_gphi_score (b.rppi_total / (b.rppi_count : ℚ)) (b.cpi_total / (b.cpi_count : ℚ)) with
        | none => rw [hg] at h; cases h
        | some g =>
          rw [hg] at h
          cases hrest : finalize rest with
          | none => rw [hrest] at h; cases h
          | some rs =>
            rw [hrest] at h
            simp only [Option.bind_eq_bind, Option.some_bind, Option.map_some] at h
            cases h
            have hb : (y == z) = false := by
              simp [hyz]
            simp [List.filter_cons, hb]
            have := ih rs hrest z hl
            simpa using this

/-- A year whose bucket misses the coverage floor contributes no output
record. -/
theorem finalize_filter_low :
    ∀ (ann : List (Int × Bucket)) (out : List AnnualRecord),
    finalize ann = some out → ((ann.map Prod.fst).Nodup) → ∀ z b,
    lookupY ann z = some b → (b.rppi_count < 2 ∨ b.cpi_count < 2) →
    out.filter (fun r => r.year == z) = [] := by
  intro ann
  induction ann with
  | nil =>
    intro out h _ z b hl
    cases hl
  | cons kb rest ih =>
    intro out h hnd z b hl hlow
    obtain ⟨y, b0⟩ := kb
    rw [List.map_cons, List.nodup_cons] at hnd
    rw [lookupY] at hl
    by_cases hyz : y = z
    · rw [if_pos hyz] at hl
      cases hl
      subst hyz
      rw [finalize, if_pos hlow] at h
      have hnone : lookupY rest y = none := by
        apply lookupY_eq_none_of_not_mem
        exact hnd.1
      exact finalize_filter_none rest out h y hnone
    · rw [if_neg hyz] at hl
      rw [finalize] at h
      by_cases hskip : b0.rppi_count < 2 ∨ b0.cpi_count < 2
      · rw [if_pos hskip] at h
        exact ih out h hnd.2 z b hl hlow
      · rw [if_neg hskip] at h
        cases hg : calculate_gphi_score (b0.rppi_total / (b0.rppi_count : ℚ)) (b0.cpi_total / (b0.cpi_count : ℚ)) with
        | none => rw [hg] at h; cases h
        | some g =>
          rw [hg] at h
          cases hrest : finalize rest with
          | none => rw [hrest] at h; cases h
          | some rs =>
            rw [hrest] at h
            simp only [Option.bind_eq_bind, Option.some_bind, Option.map_some] at h
            cases h
            have hb : (y == z) = false := by
              simp [hyz]
            simp [List.filter_cons, hb]
            have := ih rs hrest hnd.2 z b hl hlow
            simpa using this

/-- A year whose bucket meets the coverage floor contributes exactly one
output record, built from the bucket's exact averages: rounded stored
averages, the score of the unrounded averages, and the party lookup. -/
theorem finalize_filter_keep :
    ∀ (ann : List (Int × Bucket)) (out : List AnnualRecord),
    finalize ann = some out → ((ann.map Prod.fst).Nodup) → ∀ z b,
    lookupY ann z = some b → 2 ≤ b.rppi_count → 2 ≤ b.cpi_count →
    ∃ g, calculate_gphi_score (b.rppi_total / (b.rppi_count : ℚ)) (b.cpi_total / (b.cpi_count : ℚ)) = some g ∧
      out.filter (fun r => r.year == z) =
        [{ year := z,
           avg_rppi := round2 (b.rppi_total / (b.rppi_count : ℚ)),
           avg_cpi := round2 (b.cpi_total / (b.cpi_count : ℚ)),
           gphi_score := g,
           government_party := _get_government_party z }] := by
  intro ann
  induction ann with
  | nil =>
    intro out h _ z b hl
    cases hl
  | cons kb rest ih =>
    intro out h hnd z b hl hr2 hc2
    obtain ⟨y, b0⟩ := kb
    rw [List.map_cons, List.nodup_cons] at hnd
    rw [lookupY] at hl
    by_cases hyz : y = z
    · rw [if_pos hyz] at hl
      cases hl
      subst hyz
      have hskip : ¬(b.rppi_count < 2 ∨ b.cpi_count < 2) := by omega
      rw [finalize, if_neg hskip] at h
      cases hg : calculate_gphi_score (b.rppi_total / (b.rppi_count : ℚ)) (b.cpi_total / (b.cpi_count : ℚ)) with
      | none => rw [hg] at h; cases h
      | some g =>
        rw [hg] at h
        cases hrest : finalize rest with
        | none => rw [hrest] at h; cases h
        | some rs =>
          rw [hrest] at h
          simp only [Option.bind_eq_bind, Option.some_bind, Option.map_some] at h
          cases h
          refine ⟨g, rfl, ?_⟩
          have hnone : lookupY rest y = none := by
            apply lookupY_eq_none_of_not_mem
            exact hnd.1
          have htail := finalize_filter_none rest rs hrest y hnone
          simp [List.filter_cons]
          simpa using htail
    · rw [if_neg hyz] at hl
      rw [finalize] at h
      by_cases hskip : b0.rppi_count < 2 ∨ b0.cpi_count < 2
      · rw [if_pos hskip] at h
        exact ih out h hnd.2 z b hl hr2 hc2
      · rw [if_neg hskip] at h
        cases hg : calculate_gphi_score (b0.rppi_total / (b0.rppi_count : ℚ)) (b0.cpi_total / (b0.cpi_count : ℚ)) with
        | none => rw [hg] at h; cases h
        | some g0 =>
          rw [hg] at h
          cases hrest : finalize rest with
          | none => rw [hrest] at h; cases h
          | some rs =>
            rw [hrest] at h
            simp only [Option.bind_eq_bind, Option.some_bind, Option.map_some] at h
            cases h
            obtain ⟨g, hgs, hfil⟩ := ih rs hrest hnd.2 z b hl hr2 hc2
            refine ⟨g, hgs, ?_⟩
            have hb : (y == z) = false := by
              simp [hyz]
            simp [List.filter_cons, hb]
            simpa using hfil

/-- Output years are a sublist of the annual keys, in order. -/
theorem finalize_years_sublist :
    ∀ (ann : List (Int × Bucket)) (out : List AnnualRecord),
    finalize ann = some out →
    ((out.map fun r => r.year).Sublist (ann.map Prod.fst)) := by
  intro ann
  induction ann with
  | nil =>
    intro out h
    cases h
    exact List.Sublist.refl []
  | cons kb rest ih =>
    intro out h
    obtain ⟨y, b⟩ := kb
    rw [finalize] at h
    by_cases hskip : b.rppi_count < 2 ∨ b.cpi_count < 2
    · rw [if_pos hskip] at h
      exact List.Sublist.cons y (ih out h)
    · rw [if_neg hskip] at h
      cases hg : calculate_gphi_score (b.rppi_total / (b.rppi_count : ℚ)) (b.cpi_total / (b.cpi_count : ℚ)) with
      | none => rw [hg] at h; cases h
      | some g =>
        rw [hg] at h
        cases hrest : finalize rest with
        | none => rw [hrest] at h; cases h
        | some rs =>
          rw [hrest] at h
          simp only [Option.bind_eq_bind, Option.some_bind, Option.map_some] at h
          cases h
          simpa using List.Sublist.cons₂ y (ih rs hrest)

/-- Inserting a record is a permutation of consing it. -/
theorem insertByYear_perm (r : AnnualRecord) :
    ∀ l : List AnnualRecord, (insertByYear r l).Perm (r :: l) := by
  intro l
  induction l with
  | nil => exact List.Perm.refl [r]
  | cons x xs ih =>
    rw [insertByYear]
    by_cases hlt : r.year < x.year
    · rw [if_pos hlt]
    · rw [if_neg hlt]
      exact (ih.cons x).trans (List.Perm.swap r x xs)

/-- The year sort permutes its input. -/
theorem sortByYear_perm :
    ∀ l : List AnnualRecord, (sortByYear l).Perm l := by
  intro l
  induction l with
  | nil => exact List.Perm.refl []
  | cons x xs ih =>
    rw [sortByYear]
    exact (insertByYear_perm x (sortByYear xs)).trans (ih.cons x)

/-- Inserting into a year-sorted list keeps it year-sorted. -/
theorem pairwise_le_insertByYear (r : AnnualRecord) :
    ∀ l : List AnnualRecord,
    List.Pairwise (fun a b : AnnualRecord => a.year ≤ b.year) l →
    List.Pairwise (fun a b : AnnualRecord => a.year ≤ b.year) (insertByYear r l) := by
  intro l
  induction l with
  | nil => intro _; simp [insertByYear]
  | cons x xs ih =>
    intro h
    rw [List.pairwise_cons] at h
    rw [insertByYear]
    by_cases hlt : r.year < x.year
    · rw [if_pos hlt]
      rw [List.pairwise_cons]
      constructor
      · intro b hb
        rcases List.mem_cons.mp hb with hbx | hbxs
        · subst hbx
          exact le_of_lt hlt
        · exact le_trans (le_of_lt hlt) (h.1 b hbxs)
      · rw [List.pairwise_cons]
        exact h
    · rw [if_neg hlt]
      push_neg at hlt
      rw [List.pairwise_cons]
      constructor
      · intro b hb
        have := (insertByYear_perm r xs).mem_iff.mp hb
        rcases List.mem_cons.mp this with hbr | hbxs
        · subst hbr
          exact hlt
        · exact h.1 b hbxs
      · exact ih h.2

/-- The year sort produces a year-sorted list. -/
theorem sortByYear_pairwise_le :
    ∀ l : List AnnualRecord,
    List.Pairwise (fun a b : AnnualRecord => a.year ≤ b.year) (sortByYear l) := by
  intro l
  induction l with
  | nil => simp [sortByYear]
  | cons x xs ih =>
    rw [sortByYear]
    exact pairwise_le_insertByYear x (sortByYear xs) ih

/-- With distinct years the sorted output is strictly ascending by year. -/
theorem sortByYear_pairwise_lt (l : List AnnualRecord)
    (h : ((l.map fun r => r.year).Nodup)) :
    List.Pairwise (fun a b : AnnualRecord => a.year < b.year) (sortByYear l) := by
  have hperm : ((sortByYear l).map fun r => r.year).Perm (l.map fun r => r.year) :=
    (sortByYear_perm l).map fun r => r.year
  have hnd : (((sortByYear l).map fun r => r.year).Nodup) := hperm.nodup_iff.mpr h
  have hne : List.Pairwise (fun a b : AnnualRecord => a.year ≠ b.year) (sortByYear l) :=
    List.pairwise_map.mp hnd
  exact (sortByYear_pairwise_le l).imp₂ (fun a b hle hneq => lt_of_le_of_ne hle hneq) hne

/-- A successfully finalized term reports exactly the accumulated records. -/
theorem finish_termO_metrics (c : CurTerm) (t0 : Term)
    (hf : finish_termO c = some t0) : t0.annual_metrics = c.years := by
  by_cases hne : c.years = []
  · simp [finish_termO, hne] at hf
  · obtain ⟨t1, hf1, hm, _, _⟩ := finish_termO_spec c hne
    rw [hf1] at hf
    cases hf
    exact hm

/-- Every term the grouper loop emits lists its records in input order: its
record list is a sublist of the already-consumed context (covering the
pending accumulator) followed by the remaining rows. -/
theorem go_sublist :
    ∀ (rows : List AnnualRecord) (cur : Option CurTerm) (ctx : List AnnualRecord)
      (ts : List Term),
    (∀ c, cur = some c → c.years.Sublist ctx) →
    go cur rows = some ts →
    ∀ t ∈ ts, t.annual_metrics.Sublist (ctx ++ rows) := by
  intro rows
  induction rows with
  | nil =>
    intro cur ctx ts hcur h t ht
    cases cur with
    | none =>
      simp only [go] at h
      cases h
      simp at ht
    | some c =>
      simp only [go] at h
      cases hf : finish_termO c with
      | none => rw [hf] at h; cases h
      | some t0 =>
        rw [hf] at h
        have h2 : ([t0] : List Term) = ts :=
          Option.some.inj (show (some [t0] : Option (List Term)) = some ts from h)
        subst h2
        rw [List.mem_singleton] at ht
        subst ht
        rw [finish_termO_metrics c t hf, List.append_nil]
        apply hcur
        rfl
  | cons r rest ih =>
    intro cur ctx ts hcur h t ht
    by_cases hU : r.government_party = "Unknown"
    · simp only [go, hU, if_true] at h
      have hrec := ih cur ctx ts hcur h t ht
      exact hrec.trans (List.Sublist.append_left (List.sublist_cons_self r rest) ctx)
    · cases cur with
      | none =>
        simp only [go, hU, if_false] at h
        have hstart : ∀ c, some (startTerm r) = some c → c.years.Sublist (ctx ++ [r]) := by
          intro c hc
          cases hc
          simp only [startTerm]
          exact List.sublist_append_right ctx [r]
        have hrec := ih (some (startTerm r)) (ctx ++ [r]) ts hstart h t ht
        rw [List.append_assoc, List.singleton_append] at hrec
        exact hrec
      | some c =>
        by_cases hp : c.party = r.government_party
        · simp only [go, hU, if_false, hp, if_true] at h
          have hadd : ∀ c', some (addRow c r) = some c' → c'.years.Sublist (ctx ++ [r]) := by
            intro c' hc
            cases hc
            simp only [addRow]
            exact List.Sublist.append (hcur c rfl) (List.Sublist.refl [r])
          have hrec := ih (some (addRow c r)) (ctx ++ [r]) ts hadd h t ht
          rw [List.append_assoc, List.singleton_append] at hrec
          exact hrec
        · simp only [go, hU, if_false, hp] at h
          cases hf : finish_termO c with
          | none => rw [hf] at h; cases h
          | some t0 =>
            rw [hf] at h
            simp only [Option.bind_eq_bind, Option.some_bind] at h
            cases hgo : go (some (startTerm r)) rest with
            | none => rw [hgo] at h; cases h
            | some ts0 =>
              rw [hgo] at h
              have h2 : (t0 :: ts0 : List Term) = ts :=
                Option.some.inj (show (some (t0 :: ts0) : Option (List Term)) = some ts from h)
              subst h2
              rcases List.mem_cons.mp ht with ht0 | hts0
              · subst ht0
                rw [finish_termO_metrics c t hf]
                exact (hcur c rfl).trans (List.sublist_append_left ctx (r :: rest))
              · have hstart : ∀ c', some (startTerm r) = some c' → c'.years.Sublist (ctx ++ [r]) := by
                  intro c' hc
                  cases hc
                  simp only [startTerm]
                  exact List.sublist_append_right ctx [r]
                have hrec := ih (some (startTerm r)) (ctx ++ [r]) ts0 hstart hgo t hts0
                rw [List.append_assoc, List.singleton_append] at hrec
                exact hrec

/-- Decomposition of a successful transform_abs run into its three phases. -/
theorem transform_abs_parts (rppiObs cpiObs : List (String × ℚ))
    (out : List AnnualRecord) (h : transform_abs rppiObs cpiObs = some out) :
    ∃ ann out0, buildAnnual (buildQuarterly rppiObs cpiObs) [] = some ann ∧
      finalize ann = some out0 ∧ out = sortByYear out0 := by
  rw [transform_abs] at h
  cases hann : buildAnnual (buildQuarterly rppiObs cpiObs) [] with
  | none => rw [hann] at h; cases h
  | some ann =>
    rw [hann] at h
    simp only [Option.bind_eq_bind, Option.some_bind] at h
    cases hfin : finalize ann with
    | none => rw [hfin] at h; cases h
    | some out0 =>
      rw [hfin] at h
      have h2 : (sortByYear out0 : List AnnualRecord) = out :=
        Option.some.inj (show (some (sortByYear out0) : Option (List AnnualRecord)) = some out from h)
      exact ⟨ann, out0, rfl, hfin, h2.symm⟩

/-- A year with fewer than two quarterly values for either metric has no
record in the transform output. -/
theorem transform_abs_drop (rppiObs cpiObs : List (String × ℚ))
    (out : List AnnualRecord) (h : transform_abs rppiObs cpiObs = some out)
    (z : Int)
    (hlow : (rppiValsFor z (buildQuarterly rppiObs cpiObs)).length < 2 ∨
      (cpiValsFor z (buildQuarterly rppiObs cpiObs)).length < 2) :
    out.filter (fun r => r.year == z) = [] := by
  obtain ⟨ann, out0, hann, hfin, hout⟩ := transform_abs_parts rppiObs cpiObs out h
  have hperm : (out.filter (fun r => r.year == z)).Perm
      (out0.filter (fun r => r.year == z)) := by
    rw [hout]
    exact (sortByYear_perm out0).filter fun r => r.year == z
  have hl := buildAnnual_lookup_nil (buildQuarterly rppiObs cpiObs) ann hann z
  cases hhas : hasYearQ z (buildQuarterly rppiObs cpiObs) with
  | false =>
    rw [hhas] at hl
    simp only [Bool.false_eq_true, if_false] at hl
    have h0 := finalize_filter_none ann out0 hfin z hl
    rw [h0] at hperm
    exact hperm.eq_nil
  | true =>
    rw [hhas] at hl
    simp only [if_true] at hl
    have hnd := buildAnnual_nodup_keys (buildQuarterly rppiObs cpiObs) [] ann (by simp) hann
    have hlow2 : (sumBucket (freshBucket z) z (buildQuarterly rppiObs cpiObs)).rppi_count < 2 ∨
        (sumBucket (freshBucket z) z (buildQuarterly rppiObs cpiObs)).cpi_count < 2 := by
      simp only [sumBucket, freshBucket]
      simpa using hlow
    have h0 := finalize_filter_low ann out0 hfin hnd z _ hl hlow2
    rw [h0] at hperm
    exact hperm.eq_nil

/-- A year with at least two quarterly values for both metrics yields
exactly one record: averages are stored rounded to two decimals, the score
is taken on the unrounded averages, and the party comes from the lookup. -/
theorem transform_abs_keep (rppiObs cpiObs : List (String × ℚ))
    (out : List AnnualRecord) (h : transform_abs rppiObs cpiObs = some out)
    (z : Int)
    (hr2 : 2 ≤ (rppiValsFor z (buildQuarterly rppiObs cpiObs)).length)
    (hc2 : 2 ≤ (cpiValsFor z (buildQuarterly rppiObs cpiObs)).length) :
    ∃ g, calculate_gphi_score
        ((rppiValsFor z (buildQuarterly rppiObs cpiObs)).sum /
          ((rppiValsFor z (buildQuarterly rppiObs cpiObs)).length : ℚ))
        ((cpiValsFor z (buildQuarterly rppiObs cpiObs)).sum /
          ((cpiValsFor z (buildQuarterly rppiObs cpiObs)).length : ℚ)) = some g ∧
      out.filter (fun r => r.year == z) =
        [{ year := z,
           avg_rppi := round2 ((rppiValsFor z (buildQuarterly rppiObs cpiObs)).sum /
             ((rppiValsFor z (buildQuarterly rppiObs cpiObs)).length : ℚ)),
           avg_cpi := round2 ((cpiValsFor z (buildQuarterly rppiObs cpiObs)).sum /
             ((cpiValsFor z (buildQuarterly rppiObs cpiObs)).length : ℚ)),
           gphi_score := g,
           government_party := _get_government_party z }] := by
  obtain ⟨ann, out0, hann, hfin, hout⟩ := transform_abs_parts rppiObs cpiObs out h
  have hperm : (out.filter (fun r => r.year == z)).Perm
      (out0.filter (fun r => r.year == z)) := by
    rw [hout]
    exact (sortByYear_perm out0).filter fun r => r.year == z
  have hl := buildAnnual_lookup_nil (buildQuarterly rppiObs cpiObs) ann hann z
  have hhas : hasYearQ z (buildQuarterly rppiObs cpiObs) = true := by
    cases hb : hasYearQ z (buildQuarterly rppiObs cpiObs) with
    | true => rfl
    | false =>
      obtain ⟨hr0, _⟩ := vals_nil_of_not_hasYear z (buildQuarterly rppiObs cpiObs) hb
      rw [hr0] at hr2
      simp at hr2
  rw [hhas] at hl
  simp only [if_true] at hl
  have hnd := buildAnnual_nodup_keys (buildQuarterly rppiObs cpiObs) [] ann (by simp) hann
  have hr2b : 2 ≤ (sumBucket (freshBucket z) z (buildQuarterly rppiObs cpiObs)).rppi_count := by
    simp only [sumBucket, freshBucket]
    simpa using hr2
  have hc2b : 2 ≤ (sumBucket (freshBucket z) z (buildQuarterly rppiObs cpiObs)).cpi_count := by
    simp only [sumBucket, freshBucket]
    simpa using hc2
  obtain ⟨g, hg, hfil⟩ := finalize_filter_keep ann out0 hfin hnd z _ hl hr2b hc2b
  refine ⟨g, ?_, ?_⟩
  · rw [← hg]
    simp [sumBucket, freshBucket]
  · rw [hfil] at hperm
    have := List.perm_singleton.mp hperm
    rw [this]
    simp [sumBucket, freshBucket]

/-- The transform output is strictly ascending by year. -/
theorem transform_abs_sorted (rppiObs cpiObs : List (String × ℚ))
    (out : List AnnualRecord) (h : transform_abs rppiObs cpiObs = some out) :
    List.Pairwise (fun a b : AnnualRecord => a.year < b.year) out := by
  obtain ⟨ann, out0, hann, hfin, hout⟩ := transform_abs_parts rppiObs cpiObs out h
  have hnd := buildAnnual_nodup_keys (buildQuarterly rppiObs cpiObs) [] ann (by simp) hann
  have hsub := finalize_years_sublist ann out0 hfin
  have hnd0 : ((out0.map fun r => r.year).Nodup) := hnd.sublist hsub
  rw [hout]
  exact sortByYear_pairwise_lt out0 hnd0

/-- C5 counterexample: on two quarterly values 1 and 1.002 for each metric
in year 2000, the single output record stores avg_rppi = 1, while the
arithmetic mean (total divided by count) of the year's quarterly rppi
values is 1.001; the stored average is the ROUNDED mean, not the mean. -/
theorem C5_aggregator_counterexample :
    (transform_abs c5obs c5obs).map (List.map fun r => r.avg_rppi) = some [1] ∧
    rppiValsFor 2000 (buildQuarterly c5obs c5obs) = [1, 1002 / 1000] ∧
    ((1 : ℚ) + 1002 / 1000) / 2 ≠ 1 := by
  with_unfolding_all decide

/-- C5 amended: a year with fewer than two quarterly values for either
metric appears in no output record; a year with at least two for both
appears exactly once, with each stored average equal to the arithmetic mean
(total divided by count) of that metric's quarterly values for that year
ROUNDED to two decimal places. -/
theorem C5_aggregator_amended :
    ∀ (rppiObs cpiObs : List (String × ℚ)) (out : List AnnualRecord),
    transform_abs rppiObs cpiObs = some out → ∀ z : Int,
    (((rppiValsFor z (buildQuarterly rppiObs cpiObs)).length < 2 ∨
        (cpiValsFor z (buildQuarterly rppiObs cpiObs)).length < 2) →
      ∀ r ∈ out, r.year ≠ z) ∧
    (2 ≤ (rppiValsFor z (buildQuarterly rppiObs cpiObs)).length →
      2 ≤ (cpiValsFor z (buildQuarterly rppiObs cpiObs)).length →
      (out.filter (fun r => r.year == z)).length = 1 ∧
      ∀ r ∈ out, r.year = z →
        r.avg_rppi = round2 ((rppiValsFor z (buildQuarterly rppiObs cpiObs)).sum /
          ((rppiValsFor z (buildQuarterly rppiObs cpiObs)).length : ℚ)) ∧
        r.avg_cpi = round2 ((cpiValsFor z (buildQuarterly rppiObs cpiObs)).sum /
          ((cpiValsFor z (buildQuarterly rppiObs cpiObs)).length : ℚ))) := by
  intro rppiObs cpiObs out h z
  constructor
  · intro hlow r hr hyz
    have h0 := transform_abs_drop rppiObs cpiObs out h z hlow
    have hmem : r ∈ out.filter (fun r => r.year == z) := by
      rw [List.mem_filter]
      exact ⟨hr, by simp [hyz]⟩
    rw [h0] at hmem
    simp at hmem
  · intro hr2 hc2
    obtain ⟨g, hg, hfil⟩ := transform_abs_keep rppiObs cpiObs out h z hr2 hc2
    constructor
    · rw [hfil]
      rfl
    · intro r hr hyz
      have hmem : r ∈ out.filter (fun r => r.year == z) := by
        rw [List.mem_filter]
        exact ⟨hr, by simp [hyz]⟩
      rw [hfil, List.mem_singleton] at hmem
      subst hmem
      exact ⟨rfl, rfl⟩

/-- Witness for C5 amended: two quarterly values 1 and 2 per metric in year
2000 produce exactly one record with stored averages round2(3/2). -/
theorem C5_aggregator_amended_witness :
    (([c5wRec] : List AnnualRecord).filter (fun r => r.year == 2000)).length = 1 ∧
    c5wRec.avg_rppi = round2 ((rppiValsFor 2000 (buildQuarterly c5wObs c5wObs)).sum /
      ((rppiValsFor 2000 (buildQuarterly c5wObs c5wObs)).length : ℚ)) ∧
    c5wRec.avg_cpi = round2 ((cpiValsFor 2000 (buildQuarterly c5wObs c5wObs)).sum /
      ((cpiValsFor 2000 (buildQuarterly c5wObs c5wObs)).length : ℚ)) := by
  have happ := (C5_aggregator_amended c5wObs c5wObs [c5wRec]
    (by with_unfolding_all decide) 2000).2
    (by with_unfolding_all decide) (by with_unfolding_all decide)
  refine ⟨happ.1, ?_, ?_⟩
  · exact (happ.2 c5wRec (List.mem_singleton.mpr rfl) rfl).1
  · exact (happ.2 c5wRec (List.mem_singleton.mpr rfl) rfl).2

/-- C7: the aggregator output is strictly ascending by year, and every term
emitted by the grouper lists its records as an in-order sublist of the
grouper's input. -/
theorem C7_ordering :
    (∀ (rppiObs cpiObs : List (String × ℚ)) (out : List AnnualRecord),
      transform_abs rppiObs cpiObs = some out →
      List.Pairwise (fun a b : AnnualRecord => a.year < b.year) out) ∧
    (∀ (annual : List AnnualRecord) (ts : List Term),
      calculate_government_terms annual = some ts →
      ∀ t ∈ ts, t.annual_metrics.Sublist annual) := by
  constructor
  · exact transform_abs_sorted
  · intro annual ts h t ht
    have hrec := go_sublist annual none [] ts (by intro c hc; cases hc) h t ht
    simpa using hrec

/-- Witness for C7: observations inserted newest-year-first come out
ascending 2000, 2001, and the single grouped term lists those records in
input order. -/
theorem C7_ordering_witness :
    List.Pairwise (fun a b : AnnualRecord => a.year < b.year) [c7recA, c7recB] ∧
    c7term.annual_metrics.Sublist [c7recA, c7recB] :=
  ⟨C7_ordering.1 c7obs c7obs [c7recA, c7recB] (by with_unfolding_all decide),
   C7_ordering.2 [c7recA, c7recB] [c7term] (by with_unfolding_all decide) c7term
     (List.mem_singleton.mpr rfl)⟩

/-- C10: every emitted record stores its averages rounded to two decimals
while its gphi_score is the score of the exact (unrounded) averages; on the
concrete input (c10rppi, c10cpi) the stored averages are 100 and 1 with
stored score 60.04, and re-applying the score to the stored rounded
averages gives 60, which does not reproduce the stored score. -/
theorem C10_rounding_mismatch :
    (∀ (rppiObs cpiObs : List (String × ℚ)) (out : List AnnualRecord),
      transform_abs rppiObs cpiObs = some out → ∀ r ∈ out,
        r.avg_rppi = round2 ((rppiValsFor r.year (buildQuarterly rppiObs cpiObs)).sum /
          ((rppiValsFor r.year (buildQuarterly rppiObs cpiObs)).length : ℚ)) ∧
        r.avg_cpi = round2 ((cpiValsFor r.year (buildQuarterly rppiObs cpiObs)).sum /
          ((cpiValsFor r.year (buildQuarterly rppiObs cpiObs)).length : ℚ)) ∧
        calculate_gphi_score
          ((rppiValsFor r.year (buildQuarterly rppiObs cpiObs)).sum /
            ((rppiValsFor r.year (buildQuarterly rppiObs cpiObs)).length : ℚ))
          ((cpiValsFor r.year (buildQuarterly rppiObs cpiObs)).sum /
            ((cpiValsFor r.year (buildQuarterly rppiObs cpiObs)).length : ℚ)) =
          some r.gphi_score) ∧
    (transform_abs c10rppi c10cpi = some [c10rec] ∧
      calculate_gphi_score c10rec.avg_rppi c10rec.avg_cpi = some 60 ∧
      c10rec.gphi_score ≠ (60 : ℚ)) := by
  constructor
  · intro rppiObs cpiObs out h r hr
    by_cases hcase : 2 ≤ (rppiValsFor r.year (buildQuarterly rppiObs cpiObs)).length ∧
        2 ≤ (cpiValsFor r.year (buildQuarterly rppiObs cpiObs)).length
    · obtain ⟨g, hg, hfil⟩ := transform_abs_keep rppiObs cpiObs out h r.year hcase.1 hcase.2
      have hmem : r ∈ out.filter (fun r' => r'.year == r.year) := by
        rw [List.mem_filter]
        exact ⟨hr, by simp⟩
      rw [hfil, List.mem_singleton] at hmem
      refine ⟨congrArg AnnualRecord.avg_rppi hmem, congrArg AnnualRecord.avg_cpi hmem, ?_⟩
      have h3 : r.gphi_score = g := congrArg AnnualRecord.gphi_score hmem
      rw [h3]
      exact hg
    · rw [not_and_or] at hcase
      push_neg at hcase
      have h0 := transform_abs_drop rppiObs cpiObs out h r.year hcase
      have hmem : r ∈ out.filter (fun r' => r'.year == r.year) := by
        rw [List.mem_filter]
        exact ⟨hr, by simp⟩
      rw [h0] at hmem
      simp at hmem
  · with_unfolding_all decide

/-- Witness for C10: the general statement applied to the concrete
rounding-mismatch input and its single output record. -/
theorem C10_rounding_mismatch_witness :
    c10rec.avg_rppi = round2 ((rppiValsFor c10rec.year (buildQuarterly c10rppi c10cpi)).sum /
      ((rppiValsFor c10rec.year (buildQuarterly c10rppi c10cpi)).length : ℚ)) ∧
    c10rec.avg_cpi = round2 ((cpiValsFor c10rec.year (buildQuarterly c10rppi c10cpi)).sum /
      ((cpiValsFor c10rec.year (buildQuarterly c10rppi c10cpi)).length : ℚ)) ∧
    calculate_gphi_score
      ((rppiValsFor c10rec.year (buildQuarterly c10rppi c10cpi)).sum /
        ((rppiValsFor c10rec.year (buildQuarterly c10rppi c10cpi)).length : ℚ))
      ((cpiValsFor c10rec.year (buildQuarterly c10rppi c10cpi)).sum /
        ((cpiValsFor c10rec.year (buildQuarterly c10rppi c10cpi)).length : ℚ)) =
      some c10rec.gphi_score :=
  C10_rounding_mismatch.1 c10rppi c10cpi [c10rec] (by with_unfolding_all decide) c10rec
    (List.mem_singleton.mpr rfl)
